import Mathlib

/-!
Verification of the skipper streaming multipart body parser.

The development shallowly embeds the three source files:

* `src/lib/Upstream.js` — the `Upstream` Readable stream of file handles,
  its two timeout watchdogs, `writeFile`, `noMoreFiles`, `upload` and
  `fatalIncomingError`;
* `src/index.js` — the `streamingBodyParser` middleware session:
  `passControl`, `requestComplete`, the `form.on('field')` handler,
  `receiveFile`/`receiveFirstFile`, `req.file` and `validFieldName`;
* `src/lib/Parser/defaults.js` — the `Parser.acquireUpstream` lookup.

JavaScript objects become Lean structures; event-driven code becomes
explicit state-passing over lists of events.  Node `EventEmitter.once`
listeners on file streams are modelled by a counter of one-shot
listeners: emitting `error` with zero listeners attached is the
unhandled-exception condition that would crash the process, and is
recorded by the `unhandledError` flag.
-/

namespace Skipper

/-! ## Model of `src/lib/Upstream.js` -/

/-- Status of a tracked file, as recorded in `this._files` by
`Upstream.prototype.writeFile` (`'bufferingOrWriting'`) and
`Upstream.prototype.fatalIncomingError` (`'cancelled'`).  The source
never records any other status. -/
inductive FileStatus
  | bufferingOrWriting
  | cancelled
deriving DecidableEq, Repr

/-- A multipart file sub-stream (a formidable part stream).  Besides its
identity and name we track the observable event-emitter state of the
stream: how many one-shot `'error'` listeners are attached
(`Upstream.writeFile` attaches exactly one), how many `'error'` events
were delivered to a listener, whether an `'error'` event was ever
emitted with no listener attached (which in Node throws and crashes the
process), and whether the stream's bytes have already been fully
delivered to a consumer (`eofDelivered`). -/
structure FileStream where
  id : Nat
  filename : String
  errorListeners : Nat
  errorsReceived : Nat
  unhandledError : Bool
  eofDelivered : Bool
deriving DecidableEq, Repr

/-- One entry of `this._files`: the stream plus its recorded status. -/
structure FileEntry where
  stream : FileStream
  status : FileStatus
deriving DecidableEq, Repr

/-- State of one `Upstream` object.  `files` is `this._files`;
`connectedTo` is `this.connectedTo` (an array the source initialises to
`[]` and never appends to); `connected` is the `this._connected` flag
set by `_read`; `buffer` and `delivered` model the internal object
buffer of the underlying Node `Readable` (`push` appends, a consumer
read takes from the front); `endedPushes` counts `push(null)` calls;
`timeoutsCleared` records whether `fatalIncomingError` has cleared the
two watchdog timers; `errorEmits` lists the `'error'` events emitted on
the Upstream object itself. -/
structure Upstream where
  fieldName : String
  files : List FileEntry
  connectedTo : List Nat
  connected : Bool
  buffer : List Nat
  delivered : List Nat
  endedPushes : Nat
  timeoutsCleared : Bool
  errorEmits : List String
deriving DecidableEq, Repr

/-- A freshly constructed `Upstream` (constructor body, lines 17–71 of
`Upstream.js`): empty `_files`, empty `connectedTo`, both watchdog
timers armed. -/
def Upstream.fresh (fieldName : String) : Upstream :=
  { fieldName := fieldName
    files := []
    connectedTo := []
    connected := false
    buffer := []
    delivered := []
    endedPushes := 0
    timeoutsCleared := false
    errorEmits := [] }

/-- Emit an `'error'` event on a file stream.  With at least one
one-shot listener attached, the first listener consumes the event
(Node removes a `once` listener after it fires); with none attached the
emission is an unhandled `'error'`, which in Node throws. -/
def emitErrorOnStream (fs : FileStream) : FileStream :=
  if fs.errorListeners = 0 then
    { fs with unhandledError := true }
  else
    { fs with
        errorListeners := fs.errorListeners - 1
        errorsReceived := fs.errorsReceived + 1 }

/-- Model of `Upstream.prototype.writeFile` (lines 129–166): record the incoming
file stream in `_files` with status `'bufferingOrWriting'`, attach one
one-shot `'error'` listener to it, and `push` it into the Readable
buffer. -/
def Upstream.writeFile (s : Upstream) (fs : FileStream) : Upstream :=
  { s with
      files := s.files ++
        [{ stream := { fs with errorListeners := fs.errorListeners + 1 }
           status := FileStatus.bufferingOrWriting }]
      buffer := s.buffer ++ [fs.id] }

/-- Model of `Upstream.prototype.noMoreFiles` (lines 178–181): `push(null)`. -/
def Upstream.noMoreFiles (s : Upstream) : Upstream :=
  { s with endedPushes := s.endedPushes + 1 }

/-- Model of `Upstream.prototype._read` (lines 76–86): the only effect of a pull
request is setting `this._connected = true`. -/
def Upstream.read (s : Upstream) : Upstream :=
  { s with connected := true }

/-- One consumer read from the Readable object buffer: if a pushed file
handle is buffered, the consumer receives the oldest one (FIFO); the
read also triggers `_read`, setting `_connected`. -/
def Upstream.consumeOne (s : Upstream) : Upstream :=
  match s.buffer with
  | [] => { s with connected := true }
  | h :: t =>
      { s with
          buffer := t
          delivered := s.delivered ++ [h]
          connected := true }

/-- Model of `Upstream.prototype.fatalIncomingError` (lines 204–248), in source
order: clear both timers; for every entry of `_files` set its status to
`'cancelled'` and emit `'error'` on its stream; call `noMoreFiles`;
finally emit `'error'` on the Upstream itself. -/
def Upstream.fatalIncomingError (err : String) (s : Upstream) : Upstream :=
  let s1 : Upstream := { s with timeoutsCleared := true }
  let s2 : Upstream :=
    { s1 with
        files := s1.files.map fun f =>
          { stream := emitErrorOnStream f.stream
            status := FileStatus.cancelled } }
  let s3 := s2.noMoreFiles
  { s3 with errorEmits := s3.errorEmits ++ [err] }

/-- The `untilFirstFileTimer` callback (lines 48–57): when the deadline
elapses with the timer not cleared, fire `fatalIncomingError(ETIMEOUT)`
if no files have arrived. -/
def Upstream.untilFirstFileFire (err : String) (s : Upstream) : Upstream :=
  if s.timeoutsCleared then s
  else if s.files.length = 0 then Upstream.fatalIncomingError err s
  else s

/-- The `untilMaxBufferTimer` callback (lines 60–70): when the deadline
elapses with the timer not cleared, fire `fatalIncomingError(ETIMEOUT)`
if `this.connectedTo.length === 0`.  Note the condition consults
`connectedTo`, not the `_connected` flag set by `_read`. -/
def Upstream.untilMaxBufferFire (err : String) (s : Upstream) : Upstream :=
  if s.timeoutsCleared then s
  else if s.connectedTo.length = 0 then Upstream.fatalIncomingError err s
  else s

/-- Producer/consumer events on one Upstream. -/
inductive UpEv
  | write (fs : FileStream)
  | consume
deriving Repr

/-- Run a sequence of producer writes and consumer reads. -/
def Upstream.runEvents : Upstream → List UpEv → Upstream
  | s, [] => s
  | s, UpEv.write fs :: rest => Upstream.runEvents (s.writeFile fs) rest
  | s, UpEv.consume :: rest => Upstream.runEvents s.consumeOne rest

/-! ## Model of `Upstream.prototype.upload` (`src/lib/Upstream.js` lines 99–125)

`upload(receiver, cb)` registers `receiver.once('finish', ...)` which
calls `cb(null, files)` with `files` coerced to `[]` unless it is an
array, and `receiver.once('error', ...)` which calls `cb(err)`.  Both
handlers are one-shot, so only the first `'finish'` and the first
`'error'` event of the receiver produce a callback invocation. -/

/-- An event emitted by the receiver write stream during `upload`.
`finish (some fs)` is a `'finish'` event carrying an array argument
`fs`; `finish none` is a `'finish'` event with no (or a non-array)
argument, as emitted by every standard Node Writable. -/
inductive SinkEvent
  | finish (files : Option (List String))
  | errorEv (e : String)
deriving DecidableEq, Repr

/-- One invocation of the `cb` passed to `upload`. -/
inductive CbCall
  | ok (files : List String)
  | err (e : String)
deriving DecidableEq, Repr

/-- Whether a callback invocation is a success (`cb(null, files)`). -/
def CbCall.isOk : CbCall → Bool
  | CbCall.ok _ => true
  | CbCall.err _ => false

/-- State of the two one-shot handlers registered by `upload`, plus the
callback invocations made so far. -/
structure UploadState where
  finishConsumed : Bool
  errorConsumed : Bool
  calls : List CbCall
deriving DecidableEq, Repr

/-- Deliver one receiver event to the handlers `upload` registered. -/
def uploadStep (st : UploadState) : SinkEvent → UploadState
  | SinkEvent.finish p =>
      if st.finishConsumed then st
      else { st with
              finishConsumed := true
              calls := st.calls ++ [CbCall.ok (p.getD [])] }
  | SinkEvent.errorEv e =>
      if st.errorConsumed then st
      else { st with
              errorConsumed := true
              calls := st.calls ++ [CbCall.err e] }

/-- The callback invocations produced by `upload` when the receiver
emits the given sequence of events. -/
def uploadRun (evs : List SinkEvent) : List CbCall :=
  (evs.foldl uploadStep ⟨false, false, []⟩).calls

/-- The argument of the first `'finish'` event in a receiver event
sequence, if any. -/
def firstFinish : List SinkEvent → Option (Option (List String))
  | [] => none
  | SinkEvent.finish p :: _ => some p
  | SinkEvent.errorEv _ :: rest => firstFinish rest

/-- The error of the first `'error'` event in a receiver event
sequence, if any. -/
def firstError : List SinkEvent → Option String
  | [] => none
  | SinkEvent.errorEv e :: _ => some e
  | SinkEvent.finish _ :: rest => firstError rest

/-! ## Model of the middleware session (`src/index.js`)

The session state gathers the closure variables of
`streamingBodyParser`: `req.body`, `anyFilesDetected`, `hasControl`,
`reqClosed`, the `maxWaitTimer` cleared flag, and — as observables —
the list of `next(...)` invocations, the number of late-parameter
warnings, the `end(err)` signals sent to the upload streams by
`requestComplete`, and a snapshot of `req.body` taken at the moment
`next` is invoked (what downstream code is handed when control
passes). -/

/-- Assignment into `req.body`, a JavaScript object: assignment overwrites an
existing key and otherwise appends. -/
def setField (body : List (String × String)) (k v : String) :
    List (String × String) :=
  if body.any (fun p => p.1 = k) then
    body.map (fun p => if p.1 = k then (k, v) else p)
  else
    body ++ [(k, v)]

/-- Fold a list of text parameters into `req.body`. -/
def setFields (body : List (String × String)) (ps : List (String × String)) :
    List (String × String) :=
  ps.foldl (fun b p => setField b p.1 p.2) body

/-- Closure state of one `streamingBodyParser` invocation. -/
structure Session where
  body : List (String × String)
  anyFilesDetected : Bool
  hasControl : Bool
  reqClosed : Bool
  maxWaitCleared : Bool
  nextCalls : List (Option String)
  warnings : Nat
  bodyAtControl : Option (List (String × String))
  endSignals : List (Option String)
deriving DecidableEq, Repr

/-- The state at the start of a request (`src/index.js` lines 49–129). -/
def Session.start : Session :=
  { body := []
    anyFilesDetected := false
    hasControl := true
    reqClosed := false
    maxWaitCleared := false
    nextCalls := []
    warnings := 0
    bodyAtControl := none
    endSignals := [] }

/-- Model of `passControl(err)` (`src/index.js` lines 177–199): the
`hasControl` latch guards the body; with an error, `next(err)` is
called before the timer is cleared; otherwise the timer is cleared and
`next()` is called.  `bodyAtControl` records the `req.body` object
handed to the downstream middleware at that moment. -/
def Session.passControl (err : Option String) (s : Session) : Session :=
  if s.hasControl = false then s
  else
    let s1 : Session := { s with hasControl := false }
    match err with
    | some e =>
        { s1 with
            nextCalls := s1.nextCalls ++ [some e]
            bodyAtControl := some s1.body }
    | none =>
        { s1 with
            maxWaitCleared := true
            nextCalls := s1.nextCalls ++ [none]
            bodyAtControl := some s1.body }

/-- The `form.on('field')` handler (`src/index.js` lines 364–380): a
text parameter arriving after a file was detected logs a warning, and
in every case the parameter is written into `req.body`. -/
def Session.onField (k v : String) (s : Session) : Session :=
  { s with
      warnings := s.warnings + (if s.anyFilesDetected then 1 else 0)
      body := setField s.body k v }

/-- The session-level effect of `receiveFile`/`receiveFirstFile`
(`src/index.js` lines 278–336): the first file sets
`anyFilesDetected` and calls `passControl()`; later files leave the
session state alone (their stream writes live in the `Upstream`
model). -/
def Session.receiveFile (s : Session) : Session :=
  if s.anyFilesDetected then s
  else Session.passControl none { s with anyFilesDetected := true }

/-- The `giveUpOnFiles` max-wait timer callback (`src/index.js` lines
134–145): if it has not been cleared and no files were detected, call
`passControl()`. -/
def Session.giveUpOnFiles (s : Session) : Session :=
  if s.maxWaitCleared then s
  else if s.anyFilesDetected then s
  else Session.passControl none s

/-- Model of `requestComplete(err, fields, files)` (`src/index.js` lines
209–239): `end(err)` is signalled to the upload streams, `reqClosed`
is set, and then `passControl()` is called — with no argument, so the
decoder error is not forwarded to `next`. -/
def Session.requestComplete (err : Option String) (s : Session) : Session :=
  Session.passControl none
    { s with
        endSignals := s.endSignals ++ [err]
        reqClosed := true }

/-- The trigger events that can reach one session: a decoded text
parameter, a detected file sub-stream, the max-wait timer elapsing, and
the decoder finishing (with or without a fatal parse error). -/
inductive SEv
  | fieldEv (k v : String)
  | fileEv
  | timerEv
  | completeEv (err : Option String)
deriving Repr

/-- Run a sequence of trigger events against a session. -/
def Session.run : Session → List SEv → Session
  | s, [] => s
  | s, SEv.fieldEv k v :: rest => Session.run (s.onField k v) rest
  | s, SEv.fileEv :: rest => Session.run s.receiveFile rest
  | s, SEv.timerEv :: rest => Session.run s.giveUpOnFiles rest
  | s, SEv.completeEv e :: rest => Session.run (s.requestComplete e) rest

/-- The event sequence of a list of text parameters. -/
def fieldsEvs (ps : List (String × String)) : List SEv :=
  ps.map fun p => SEv.fieldEv p.1 p.2

/-! ## Model of `req.file` / `validFieldName` (`src/index.js` lines 75–97
and 347–353) -/

/-- The JavaScript values a caller can pass as `fieldName`. -/
inductive JSValue
  | undef
  | nullv
  | str (s : String)
  | num (n : Int)
  | nan
  | infinity
  | boolv (b : Bool)
deriving DecidableEq, Repr

/-- lodash `_.isUndefined`. -/
def isUndefined : JSValue → Bool
  | JSValue.undef => true
  | _ => false

/-- lodash `_.isString`. -/
def isString : JSValue → Bool
  | JSValue.str _ => true
  | _ => false

/-- lodash `_.isFinite` on these value shapes: true exactly for finite
numbers (`NaN`, `Infinity`, `null`, `undefined` and booleans all
fail the `!isNaN(parseFloat(value))` part of the lodash check). -/
def isFiniteNum : JSValue → Bool
  | JSValue.num _ => true
  | _ => false

/-- JavaScript strict equality `fieldName === 0`. -/
def strictEqZero : JSValue → Bool
  | JSValue.num n => n = 0
  | _ => false

/-- Model of `validFieldName` (`src/index.js` lines 347–353). -/
def validFieldName (v : JSValue) : Bool :=
  !isUndefined v &&
    (isString v || isFiniteNum v || strictEqZero v)

/-- JavaScript string coercion of a property key, as performed by
`req.files._watchedFields[fieldName]`. -/
def toKey : JSValue → String
  | JSValue.undef => "undefined"
  | JSValue.nullv => "null"
  | JSValue.str s => s
  | JSValue.num n => toString n
  | JSValue.nan => "NaN"
  | JSValue.infinity => "Infinity"
  | JSValue.boolv b => if b then "true" else "false"

/-- The state behind `req.file`: the `_watchedFields` dictionary
(field-name key to the identity of the `UploadStream` object stored
there), a counter supplying the identity of the next stream object to
be allocated, and the `reqClosed` flag. -/
structure ReqState where
  watchedFields : List (String × Nat)
  nextId : Nat
  reqClosed : Bool
deriving DecidableEq, Repr

/-- An empty `_watchedFields` dictionary on an open request. -/
def ReqState.start : ReqState :=
  { watchedFields := [], nextId := 0, reqClosed := false }

/-- What `req.file(fieldName)` returns: a dead `NoopStream`, or the
`UploadStream` with the given object identity. -/
inductive FileLookup
  | noop
  | upstream (id : Nat)
deriving DecidableEq, Repr

/-- Property lookup in the `_watchedFields` dictionary. -/
def lookupField (l : List (String × Nat)) (k : String) : Option Nat :=
  (l.find? (fun p => p.1 = k)).map (fun p => p.2)

/-- The usage error thrown by `req.file` on an invalid field name. -/
def usageError (v : JSValue) : String :=
  "Invalid usage of req.file! `" ++ toKey v ++ "` is not a valid field name."

/-- Model of `req.file(fieldName)` (`src/index.js` lines 75–97): throw a usage
error on an invalid name; return a `NoopStream` once the request is
closed; otherwise return the stream already registered under the key,
or allocate and register a new one on first reference. -/
def reqFile (v : JSValue) (s : ReqState) :
    Except String (FileLookup × ReqState) :=
  if !validFieldName v then Except.error (usageError v)
  else if s.reqClosed then Except.ok (FileLookup.noop, s)
  else
    match lookupField s.watchedFields (toKey v) with
    | some i => Except.ok (FileLookup.upstream i, s)
    | none =>
        Except.ok (FileLookup.upstream s.nextId,
          { s with
              watchedFields := s.watchedFields ++ [(toKey v, s.nextId)]
              nextId := s.nextId + 1 })

/-! ## Concrete inputs used in counterexamples and witnesses -/

/-- A file stream whose bytes have already been fully delivered to its
consumer. -/
def doneStream : FileStream :=
  { id := 7, filename := "avatar.png", errorListeners := 0
    errorsReceived := 0, unhandledError := false, eofDelivered := true }

/-- An Upstream that emitted `doneStream` and whose consumer already
pulled it: its bytes are delivered, nothing is buffered. -/
def c6state : Upstream :=
  Upstream.consumeOne ((Upstream.fresh "docs").writeFile doneStream)

/-- A still-buffering file stream. -/
def pendingStream : FileStream :=
  { id := 2, filename := "b.txt", errorListeners := 0
    errorsReceived := 0, unhandledError := false, eofDelivered := false }

/-- An Upstream that received one file and then one
`fatalIncomingError`. -/
def c7once : Upstream :=
  Upstream.fatalIncomingError "ECONNRESET"
    ((Upstream.fresh "docs").writeFile pendingStream)

/-- Two file streams used to exercise the pull protocol. -/
def sampleA : FileStream :=
  { id := 0, filename := "a.png", errorListeners := 0
    errorsReceived := 0, unhandledError := false, eofDelivered := false }

/-- Second sample file stream. -/
def sampleB : FileStream :=
  { id := 1, filename := "b.png", errorListeners := 0
    errorsReceived := 0, unhandledError := false, eofDelivered := false }

/-! ## Helper lemmas -/

/-- Running a concatenation of event lists runs them in sequence. -/
theorem Session.run_append (a b : List SEv) :
    ∀ s : Session, Session.run s (a ++ b) = Session.run (Session.run s a) b := by
  induction a with
  | nil => intro s; simp [Session.run]
  | cons e t ih => intro s; cases e <;> simp [Session.run, ih]

/-- The `hasControl` latch invariant: while the parser holds control no
`next` call has been made, and after it releases control at most one
has. -/
theorem Session.run_latch (evs : List SEv) :
    ∀ s : Session,
      s.nextCalls.length ≤ (if s.hasControl then 0 else 1) →
      (Session.run s evs).nextCalls.length ≤
        (if (Session.run s evs).hasControl then 0 else 1) := by
  induction evs with
  | nil => intro s h; simpa [Session.run] using h
  | cons e rest ih =>
    intro s h
    cases e with
    | fieldEv k v =>
        refine ih _ ?_
        simpa [Session.run, Session.onField] using h
    | fileEv =>
        refine ih _ ?_
        by_cases hf : s.anyFilesDetected
        · simpa [Session.receiveFile, hf] using h
        · by_cases hc : s.hasControl
          · simp [Session.receiveFile, hf, Session.passControl, hc] at h ⊢
            simp [h]
          · simp only [Bool.not_eq_true] at hc
            simp [Session.receiveFile, hf, Session.passControl, hc] at h ⊢
            simp [h]
    | timerEv =>
        refine ih _ ?_
        by_cases hw : s.maxWaitCleared
        · simpa [Session.giveUpOnFiles, hw] using h
        · by_cases hf : s.anyFilesDetected
          · simpa [Session.giveUpOnFiles, hw, hf] using h
          · by_cases hc : s.hasControl
            · simp [Session.giveUpOnFiles, hw, hf, Session.passControl, hc] at h ⊢
              simp [h]
            · simp only [Bool.not_eq_true] at hc
              simp [Session.giveUpOnFiles, hw, hf, Session.passControl, hc] at h ⊢
              simp [h]
    | completeEv err =>
        refine ih _ ?_
        by_cases hc : s.hasControl
        · simp [Session.requestComplete, Session.passControl, hc] at h ⊢
          simp [h]
        · simp only [Bool.not_eq_true] at hc
          simp [Session.requestComplete, Session.passControl, hc] at h ⊢
          simp [h]

/-- While no file has been detected, a run of text-parameter events
only accumulates the parameters into `req.body`. -/
theorem Session.run_fieldsEvs_waiting (ps : List (String × String)) :
    ∀ s : Session, s.anyFilesDetected = false →
      Session.run s (fieldsEvs ps) = { s with body := setFields s.body ps } := by
  induction ps with
  | nil => intro s h; simp [fieldsEvs, Session.run, setFields]
  | cons p t ih =>
    intro s h
    have step : s.onField p.1 p.2 = { s with body := setField s.body p.1 p.2 } := by
      simp [Session.onField, h]
    simp only [fieldsEvs, List.map_cons, Session.run, step]
    have := ih { s with body := setField s.body p.1 p.2 } (by simpa using h)
    simpa [fieldsEvs, setFields] using this

/-- After a file has been detected, a run of text-parameter events
still writes each parameter into `req.body`, and logs one warning
apiece. -/
theorem Session.run_fieldsEvs_late (ps : List (String × String)) :
    ∀ s : Session, s.anyFilesDetected = true →
      Session.run s (fieldsEvs ps) =
        { s with
            body := setFields s.body ps
            warnings := s.warnings + ps.length } := by
  induction ps with
  | nil => intro s h; simp [fieldsEvs, Session.run, setFields]
  | cons p t ih =>
    intro s h
    have step : s.onField p.1 p.2 =
        { s with body := setField s.body p.1 p.2, warnings := s.warnings + 1 } := by
      simp [Session.onField, h]
    simp only [fieldsEvs, List.map_cons, Session.run, step]
    have := ih
      { s with body := setField s.body p.1 p.2, warnings := s.warnings + 1 }
      (by simpa using h)
    simp only [fieldsEvs] at this
    rw [this]
    simp [setFields, List.length_cons]
    omega

/-- After the first file has been detected, further file events leave
the session state unchanged. -/
theorem Session.run_replicate_fileEv (k : Nat) :
    ∀ s : Session, s.anyFilesDetected = true →
      Session.run s (List.replicate k SEv.fileEv) = s := by
  induction k with
  | zero => intro s _; simp [Session.run]
  | succ n ih =>
    intro s h
    simp only [List.replicate_succ, Session.run, Session.receiveFile, h, if_true]
    exact ih s h

/-- FIFO invariant of the Readable object buffer: the handles already
delivered followed by the handles still buffered are exactly the
handles recorded in `_files`, in emission order. -/
theorem Upstream.runEvents_fifo (evs : List UpEv) :
    ∀ s : Upstream,
      s.delivered ++ s.buffer = s.files.map (fun f => f.stream.id) →
      (Upstream.runEvents s evs).delivered ++ (Upstream.runEvents s evs).buffer =
        (Upstream.runEvents s evs).files.map (fun f => f.stream.id) := by
  induction evs with
  | nil => intro s h; simpa [Upstream.runEvents] using h
  | cons e rest ih =>
    intro s h
    cases e with
    | write fs =>
        refine ih _ ?_
        simp only [Upstream.writeFile, List.map_append, List.map_cons, List.map_nil]
        rw [← List.append_assoc, h]
    | consume =>
        refine ih _ ?_
        cases hb : s.buffer with
        | nil =>
            simp only [Upstream.consumeOne, hb]
            simpa [hb] using h
        | cons b t =>
            simp only [Upstream.consumeOne, hb]
            rw [hb] at h
            simpa using h

/-- Dictionary lookup steps through the first binding. -/
theorem lookupField_cons (q : String × Nat) (l : List (String × Nat))
    (k : String) :
    lookupField (q :: l) k = if q.1 = k then some q.2 else lookupField l k := by
  by_cases hq : q.1 = k
  · simp [lookupField, List.find?_cons, hq]
  · simp [lookupField, List.find?_cons, hq]

/-- Appending a fresh binding to a dictionary that does not yet contain
the key makes lookup of that key find the fresh binding. -/
theorem lookupField_append (l : List (String × Nat)) (k : String) (i : Nat)
    (h : lookupField l k = none) :
    lookupField (l ++ [(k, i)]) k = some i := by
  induction l with
  | nil => simp [lookupField]
  | cons q t ih =>
    by_cases hq : q.1 = k
    · rw [lookupField_cons] at h
      simp [hq] at h
    · rw [lookupField_cons, if_neg hq] at h
      rw [List.cons_append, lookupField_cons, if_neg hq]
      exact ih h

/-- The one-shot handlers registered by `upload` deliver exactly the
first `'finish'` event (as a success callback with the array default)
and exactly the first `'error'` event (as a failure callback), however
the receiver's later events interleave. -/
theorem uploadRun_fold (evs : List SinkEvent) :
    ∀ st : UploadState,
      ((evs.foldl uploadStep st).calls.filter CbCall.isOk =
        st.calls.filter CbCall.isOk ++
          (if st.finishConsumed then []
           else ((firstFinish evs).map (fun p => CbCall.ok (p.getD []))).toList)) ∧
      ((evs.foldl uploadStep st).calls.filter (fun c => !CbCall.isOk c) =
        st.calls.filter (fun c => !CbCall.isOk c) ++
          (if st.errorConsumed then []
           else ((firstError evs).map CbCall.err).toList)) := by
  induction evs with
  | nil =>
    intro st
    constructor <;> simp [firstFinish, firstError]
  | cons e rest ih =>
    intro st
    cases e with
    | finish p =>
        by_cases hf : st.finishConsumed
        · have hstep : uploadStep st (SinkEvent.finish p) = st := by
            simp [uploadStep, hf]
          have hih := ih st
          constructor
          · simp only [List.foldl_cons, hstep]
            rw [hih.1]
            simp [hf, firstFinish]
          · simp only [List.foldl_cons, hstep]
            rw [hih.2]
            simp [firstError]
        · have hstep : uploadStep st (SinkEvent.finish p) =
              { st with
                  finishConsumed := true
                  calls := st.calls ++ [CbCall.ok (p.getD [])] } := by
            simp [uploadStep, hf]
          have hih := ih
            { st with
                finishConsumed := true
                calls := st.calls ++ [CbCall.ok (p.getD [])] }
          constructor
          · simp only [List.foldl_cons, hstep]
            rw [hih.1]
            simp [hf, firstFinish, CbCall.isOk, List.filter_append]
          · simp only [List.foldl_cons, hstep]
            rw [hih.2]
            simp [firstError, CbCall.isOk, List.filter_append]
    | errorEv er =>
        by_cases he : st.errorConsumed
        · have hstep : uploadStep st (SinkEvent.errorEv er) = st := by
            simp [uploadStep, he]
          have hih := ih st
          constructor
          · simp only [List.foldl_cons, hstep]
            rw [hih.1]
            simp [firstFinish]
          · simp only [List.foldl_cons, hstep]
            rw [hih.2]
            simp [he, firstError]
        · have hstep : uploadStep st (SinkEvent.errorEv er) =
              { st with
                  errorConsumed := true
                  calls := st.calls ++ [CbCall.err er] } := by
            simp [uploadStep, he]
          have hih := ih
            { st with
                errorConsumed := true
                calls := st.calls ++ [CbCall.err er] }
          constructor
          · simp only [List.foldl_cons, hstep]
            rw [hih.1]
            simp [firstFinish, CbCall.isOk, List.filter_append]
          · simp only [List.foldl_cons, hstep]
            rw [hih.2]
            simp [he, firstError, CbCall.isOk, List.filter_append]

/-! ## Claim theorems -/

/-- Claim C1, counterexample.  In a request whose first event is a file
followed by a late text field `a=1`, the mapping handed to downstream
code at the moment control passes is empty, yet the same `req.body`
object afterwards contains the late field (with a warning logged): the
late field does change the mapping seen by downstream code, refuting
the claim as stated. -/
theorem claimC1_counterexample :
    (Session.run Session.start [SEv.fileEv, SEv.fieldEv "a" "1"]).bodyAtControl
        = some [] ∧
    (Session.run Session.start [SEv.fileEv, SEv.fieldEv "a" "1"]).body
        = [("a", "1")] ∧
    (Session.run Session.start [SEv.fileEv, SEv.fieldEv "a" "1"]).body ≠ [] ∧
    (Session.run Session.start [SEv.fileEv, SEv.fieldEv "a" "1"]).warnings = 1 := by
  refine ⟨rfl, rfl, ?_, rfl⟩
  decide

/-- Claim C1, amended.  For N text fields followed by M ≥ 1 file
sub-streams and any further text fields: the mapping snapshot at the
instant control passes contains exactly the N pre-file fields, `next`
is invoked exactly once with no error, and text fields arriving after
the first file are still written into the shared mapping, one warning
apiece, so downstream code holding the mapping can observe them. -/
theorem claimC1_amended (pre post : List (String × String)) (m : Nat) :
    (Session.run Session.start
        (fieldsEvs pre ++ (List.replicate (m + 1) SEv.fileEv ++ fieldsEvs post))).bodyAtControl
        = some (setFields [] pre) ∧
    (Session.run Session.start
        (fieldsEvs pre ++ (List.replicate (m + 1) SEv.fileEv ++ fieldsEvs post))).body
        = setFields (setFields [] pre) post ∧
    (Session.run Session.start
        (fieldsEvs pre ++ (List.replicate (m + 1) SEv.fileEv ++ fieldsEvs post))).warnings
        = post.length ∧
    (Session.run Session.start
        (fieldsEvs pre ++ (List.replicate (m + 1) SEv.fileEv ++ fieldsEvs post))).nextCalls
        = [none] := by
  have hpre : Session.run Session.start (fieldsEvs pre) =
      { Session.start with body := setFields [] pre } :=
    Session.run_fieldsEvs_waiting pre Session.start rfl
  have hrecv : Session.receiveFile { Session.start with body := setFields [] pre } =
      { body := setFields [] pre
        anyFilesDetected := true
        hasControl := false
        reqClosed := false
        maxWaitCleared := true
        nextCalls := [none]
        warnings := 0
        bodyAtControl := some (setFields [] pre)
        endSignals := [] } := by
    simp [Session.receiveFile, Session.passControl, Session.start]
  have hmid : Session.run
      { body := setFields [] pre
        anyFilesDetected := true
        hasControl := false
        reqClosed := false
        maxWaitCleared := true
        nextCalls := [none]
        warnings := 0
        bodyAtControl := some (setFields [] pre)
        endSignals := [] } (List.replicate m SEv.fileEv) =
      { body := setFields [] pre
        anyFilesDetected := true
        hasControl := false
        reqClosed := false
        maxWaitCleared := true
        nextCalls := [none]
        warnings := 0
        bodyAtControl := some (setFields [] pre)
        endSignals := [] } :=
    Session.run_replicate_fileEv m _ rfl
  have hpost := Session.run_fieldsEvs_late post
      { body := setFields [] pre
        anyFilesDetected := true
        hasControl := false
        reqClosed := false
        maxWaitCleared := true
        nextCalls := [none]
        warnings := 0
        bodyAtControl := some (setFields [] pre)
        endSignals := [] } rfl
  rw [Session.run_append, hpre, Session.run_append, List.replicate_succ]
  show _ ∧ _ ∧ _ ∧ _
  rw [show Session.run { Session.start with body := setFields [] pre }
        (SEv.fileEv :: List.replicate m SEv.fileEv) =
      Session.run (Session.receiveFile { Session.start with body := setFields [] pre })
        (List.replicate m SEv.fileEv) from rfl]
  rw [hrecv, hmid, hpost]
  refine ⟨rfl, rfl, by simp, rfl⟩

/-- Claim C2, code evaluation at the failing input.  A fresh Upstream
receives a pull (`_read`) immediately, which sets `_connected`; yet
when the `maxTimeToBuffer` deadline elapses, the watchdog — which
consults the never-appended `connectedTo` array rather than the
`_connected` flag — still invokes `fatalIncomingError(ETIMEOUT)`. -/
theorem claimC2_code_eval :
    (Upstream.read (Upstream.fresh "avatar")).connected = true ∧
    (Upstream.read (Upstream.fresh "avatar")).connectedTo = [] ∧
    (Upstream.read (Upstream.fresh "avatar")).timeoutsCleared = false ∧
    (Upstream.untilMaxBufferFire "ETIMEOUT"
        (Upstream.read (Upstream.fresh "avatar"))).errorEmits = ["ETIMEOUT"] ∧
    (Upstream.untilMaxBufferFire "ETIMEOUT"
        (Upstream.read (Upstream.fresh "avatar"))).endedPushes = 1 :=
  ⟨rfl, rfl, rfl, rfl, rfl⟩

/-- Claim C3.  Across any sequence of the trigger events (first file,
wait timer, request completion with or without a decoder error, in any
order and multiplicity) the `hasControl` latch lets `next` be invoked
at most once. -/
theorem claimC3 (evs : List SEv) :
    (Session.run Session.start evs).nextCalls.length ≤ 1 := by
  have h := Session.run_latch evs Session.start (by simp [Session.start])
  by_cases hc : (Session.run Session.start evs).hasControl = true
  · rw [if_pos hc] at h
    omega
  · rw [if_neg hc] at h
    exact h

/-- Claim C4.  For any interleaving of producer `writeFile`s and
consumer reads on a fresh Upstream, the handles delivered to the
consumer followed by the handles still buffered are exactly the
emitted handles in emission order (no loss, duplication or
reordering); in particular once the buffer is drained the consumer has
received exactly the emitted sequence, however late it attached. -/
theorem claimC4 (fieldName : String) (evs : List UpEv) :
    (Upstream.runEvents (Upstream.fresh fieldName) evs).delivered ++
        (Upstream.runEvents (Upstream.fresh fieldName) evs).buffer =
      (Upstream.runEvents (Upstream.fresh fieldName) evs).files.map
        (fun f => f.stream.id) ∧
    ((Upstream.runEvents (Upstream.fresh fieldName) evs).buffer = [] →
      (Upstream.runEvents (Upstream.fresh fieldName) evs).delivered =
        (Upstream.runEvents (Upstream.fresh fieldName) evs).files.map
          (fun f => f.stream.id)) := by
  have h := Upstream.runEvents_fifo evs (Upstream.fresh fieldName)
    (by simp [Upstream.fresh])
  refine ⟨h, fun hb => ?_⟩
  rw [← h, hb, List.append_nil]

/-- Claim C4, witness: two files are emitted before the consumer
attaches; the two subsequent reads deliver exactly those two handles in
order. -/
theorem claimC4_witness :
    (Upstream.runEvents (Upstream.fresh "avatar")
        [UpEv.write sampleA, UpEv.write sampleB, UpEv.consume,
          UpEv.consume]).delivered =
      (Upstream.runEvents (Upstream.fresh "avatar")
        [UpEv.write sampleA, UpEv.write sampleB, UpEv.consume,
          UpEv.consume]).files.map (fun f => f.stream.id) :=
  (claimC4 "avatar"
    [UpEv.write sampleA, UpEv.write sampleB, UpEv.consume, UpEv.consume]).2 rfl

/-- Claim C5, code evaluation at the failing input.  When the decoder
finishes with a fatal parse error before control has passed, the
error is signalled to the upload streams' `end` and logged, but
`requestComplete` calls `passControl()` with no argument, so `next`
is invoked without the error. -/
theorem claimC5_code_eval :
    (Session.run Session.start [SEv.completeEv (some "EPARSE")]).nextCalls
        = [none] ∧
    (Session.run Session.start [SEv.completeEv (some "EPARSE")]).nextCalls
        ≠ [some "EPARSE"] ∧
    (Session.run Session.start [SEv.completeEv (some "EPARSE")]).endSignals
        = [some "EPARSE"] ∧
    (Session.run Session.start [SEv.completeEv (some "EPARSE")]).hasControl
        = false := by
  refine ⟨rfl, ?_, rfl, rfl⟩
  decide

/-- Claim C6, counterexample.  `c6state` holds one handle whose bytes
were already fully delivered to the consumer (`eofDelivered`, pulled
into `delivered`); `fatalIncomingError` nevertheless transitions it to
`cancelled` and raises an `'error'` event on its byte stream, so an
already-delivered handle is not left unaffected. -/
theorem claimC6_counterexample :
    c6state.delivered = [7] ∧
    (c6state.files.map fun f => f.stream.eofDelivered) = [true] ∧
    (c6state.files.map fun f => f.status) = [FileStatus.bufferingOrWriting] ∧
    ((Upstream.fatalIncomingError "ECANCELLED" c6state).files.map fun f => f.status)
        = [FileStatus.cancelled] ∧
    ((Upstream.fatalIncomingError "ECANCELLED" c6state).files.map
        fun f => f.stream.errorsReceived) = [1] ∧
    (Upstream.fatalIncomingError "ECANCELLED" c6state).files ≠ c6state.files := by
  refine ⟨rfl, rfl, rfl, rfl, rfl, ?_⟩
  decide

/-- Claim C6, amended.  `fatalIncomingError` transitions every tracked
handle — whether or not its bytes were already delivered — to
`cancelled` and raises an error on its byte source, then signals
end-of-sequence (`push(null)`) and emits the error on the Upstream
itself. -/
theorem claimC6_amended (s : Upstream) (err : String) :
    (Upstream.fatalIncomingError err s).files.length = s.files.length ∧
    (∀ f ∈ s.files,
      FileEntry.mk (emitErrorOnStream f.stream) FileStatus.cancelled ∈
        (Upstream.fatalIncomingError err s).files) ∧
    (Upstream.fatalIncomingError err s).endedPushes = s.endedPushes + 1 ∧
    (Upstream.fatalIncomingError err s).errorEmits = s.errorEmits ++ [err] ∧
    (Upstream.fatalIncomingError err s).timeoutsCleared = true := by
  refine ⟨?_, ?_, rfl, rfl, rfl⟩
  · simp [Upstream.fatalIncomingError, Upstream.noMoreFiles]
  · intro f hf
    simp only [Upstream.fatalIncomingError, Upstream.noMoreFiles]
    exact List.mem_map_of_mem _ hf

/-- Claim C6, witness: in `c6state` the single already-delivered handle
is cancelled and errored by `fatalIncomingError`, and end-of-sequence
is pushed. -/
theorem claimC6_witness :
    FileEntry.mk
        (emitErrorOnStream { doneStream with errorListeners := 1 })
        FileStatus.cancelled ∈
      (Upstream.fatalIncomingError "ECANCELLED" c6state).files ∧
    (Upstream.fatalIncomingError "ECANCELLED" c6state).endedPushes =
      c6state.endedPushes + 1 :=
  ⟨(claimC6_amended c6state "ECANCELLED").2.1
      ⟨{ doneStream with errorListeners := 1 }, FileStatus.bufferingOrWriting⟩
      (by decide),
    (claimC6_amended c6state "ECANCELLED").2.2.1⟩

/-- Claim C7, counterexample.  Invoking `fatalIncomingError` a second
time on `c7once` is observably different from the first invocation: a
second `'error'` event is emitted on the Upstream, another
end-of-sequence is pushed, and the file stream — whose one-shot
`'error'` listener was consumed by the first invocation — now receives
an unhandled `'error'` emission. -/
theorem claimC7_counterexample :
    Upstream.fatalIncomingError "ECONNRESET" c7once ≠ c7once ∧
    c7once.errorEmits = ["ECONNRESET"] ∧
    (Upstream.fatalIncomingError "ECONNRESET" c7once).errorEmits
        = ["ECONNRESET", "ECONNRESET"] ∧
    (c7once.files.map fun f => f.stream.unhandledError) = [false] ∧
    ((Upstream.fatalIncomingError "ECONNRESET" c7once).files.map
        fun f => f.stream.unhandledError) = [true] ∧
    c7once.endedPushes = 1 ∧
    (Upstream.fatalIncomingError "ECONNRESET" c7once).endedPushes = 2 := by
  refine ⟨?_, rfl, rfl, rfl, rfl, rfl, rfl⟩
  decide

/-- Claim C7, amended.  A second `fatalIncomingError` leaves the file
statuses and the cleared-timer state exactly as the first left them,
but is not effect-free: it emits one more `'error'` event on the
Upstream and pushes one more end-of-sequence signal. -/
theorem claimC7_amended (s : Upstream) (err : String) :
    (Upstream.fatalIncomingError err (Upstream.fatalIncomingError err s)).files.map
        (fun f => f.status) =
      (Upstream.fatalIncomingError err s).files.map (fun f => f.status) ∧
    (Upstream.fatalIncomingError err (Upstream.fatalIncomingError err s)).timeoutsCleared =
      (Upstream.fatalIncomingError err s).timeoutsCleared ∧
    (Upstream.fatalIncomingError err (Upstream.fatalIncomingError err s)).errorEmits =
      (Upstream.fatalIncomingError err s).errorEmits ++ [err] ∧
    (Upstream.fatalIncomingError err (Upstream.fatalIncomingError err s)).endedPushes =
      (Upstream.fatalIncomingError err s).endedPushes + 1 := by
  refine ⟨?_, rfl, rfl, rfl⟩
  simp [Upstream.fatalIncomingError, Upstream.noMoreFiles, List.map_map,
    Function.comp]

/-- Claim C8.  `req.file(fieldName)`: a fieldName that is neither a
string nor a finite number raises a synchronous usage error; on a
closed request a valid name yields a no-op stand-in without touching
the registry; on first reference a valid name allocates and registers a
new stream; and any successful stream lookup is stable — repeating the
call returns the same stream object and leaves the state unchanged. -/
theorem claimC8 (v : JSValue) (s : ReqState) :
    (isString v = false ∧ isFiniteNum v = false →
      reqFile v s = Except.error (usageError v)) ∧
    (validFieldName v = true → s.reqClosed = true →
      reqFile v s = Except.ok (FileLookup.noop, s)) ∧
    (validFieldName v = true → s.reqClosed = false →
      lookupField s.watchedFields (toKey v) = none →
      reqFile v s = Except.ok (FileLookup.upstream s.nextId,
        { s with
            watchedFields := s.watchedFields ++ [(toKey v, s.nextId)]
            nextId := s.nextId + 1 })) ∧
    (∀ r s2, reqFile v s = Except.ok (FileLookup.upstream r, s2) →
      reqFile v s2 = Except.ok (FileLookup.upstream r, s2)) := by
  refine ⟨?_, ?_, ?_, ?_⟩
  · rintro ⟨h1, h2⟩
    have hz : strictEqZero v = false := by
      cases v <;> simp_all [strictEqZero, isFiniteNum]
    have hv : validFieldName v = false := by
      simp [validFieldName, h1, h2, hz]
    simp [reqFile, hv]
  · intro hv hc
    simp [reqFile, hv, hc]
  · intro hv hc hl
    simp [reqFile, hv, hc, hl]
  · intro r s2 hok
    by_cases hv : validFieldName v = true
    · by_cases hc : s.reqClosed = true
      · simp [reqFile, hv, hc] at hok
      · rw [Bool.not_eq_true] at hc
        cases hl : lookupField s.watchedFields (toKey v) with
        | some i =>
            simp [reqFile, hv, hc, hl] at hok
            obtain ⟨hr, hs⟩ := hok
            subst hr
            subst hs
            simp [reqFile, hv, hc, hl]
        | none =>
            simp [reqFile, hv, hc, hl] at hok
            obtain ⟨hr, hs⟩ := hok
            subst hr
            subst hs
            have hl2 := lookupField_append s.watchedFields (toKey v) s.nextId hl
            simp [reqFile, hv, hc, hl2]
    · rw [Bool.not_eq_true] at hv
      simp [reqFile, hv] at hok

/-- Claim C8, witness: `null` is rejected as a usage error; on a closed
request `"avatar"` yields the no-op stand-in; on an open request
`"avatar"` allocates stream 0 and registers it; repeating the call
returns stream 0 again with the registry unchanged. -/
theorem claimC8_witness :
    reqFile JSValue.nullv ReqState.start = Except.error (usageError JSValue.nullv) ∧
    reqFile (JSValue.str "avatar")
        { watchedFields := [], nextId := 0, reqClosed := true } =
      Except.ok (FileLookup.noop,
        { watchedFields := [], nextId := 0, reqClosed := true }) ∧
    reqFile (JSValue.str "avatar") ReqState.start =
      Except.ok (FileLookup.upstream 0,
        { watchedFields := [("avatar", 0)], nextId := 1, reqClosed := false }) ∧
    reqFile (JSValue.str "avatar")
        { watchedFields := [("avatar", 0)], nextId := 1, reqClosed := false } =
      Except.ok (FileLookup.upstream 0,
        { watchedFields := [("avatar", 0)], nextId := 1, reqClosed := false }) := by
  refine ⟨(claimC8 JSValue.nullv ReqState.start).1 (by decide),
    (claimC8 (JSValue.str "avatar") _).2.1 rfl rfl, ?_, ?_⟩
  · have h := (claimC8 (JSValue.str "avatar") ReqState.start).2.2.1 rfl rfl rfl
    simpa [ReqState.start, toKey] using h
  · exact (claimC8 (JSValue.str "avatar")
      { watchedFields := [("avatar", 0)], nextId := 1, reqClosed := false }).2.2.2
      0 _ rfl

/-- Claim C9.  The callback of `upload(receiver, cb)` receives exactly
one success invocation, carrying the argument of the receiver's first
`'finish'` event coerced to an array (empty when the receiver supplies
none), and exactly one failure invocation, carrying the receiver's
first `'error'`; later finish or error reports are ignored by the
one-shot handlers. -/
theorem claimC9 (evs : List SinkEvent) :
    (uploadRun evs).filter CbCall.isOk =
      ((firstFinish evs).map (fun p => CbCall.ok (p.getD []))).toList ∧
    (uploadRun evs).filter (fun c => !CbCall.isOk c) =
      ((firstError evs).map CbCall.err).toList := by
  have h := uploadRun_fold evs ⟨false, false, []⟩
  constructor
  · simpa [uploadRun] using h.1
  · simpa [uploadRun] using h.2

/-- Claim C10.  `writeFile` attaches an `'error'` listener to the file
stream at write time: the entry recorded for the stream carries one
more listener than the stream had, so emitting an `'error'` on a
buffered file stream (whose Upstream has no consumer attached) is
handled by that listener instead of becoming an unhandled exception
that would crash the process. -/
theorem claimC10 (s : Upstream) (fs : FileStream)
    (h : fs.unhandledError = false) :
    ∃ f, (s.writeFile fs).files.getLast? = some f ∧
      f.stream.errorListeners = fs.errorListeners + 1 ∧
      (emitErrorOnStream f.stream).unhandledError = false ∧
      (emitErrorOnStream f.stream).errorsReceived = fs.errorsReceived + 1 := by
  refine ⟨{ stream := { fs with errorListeners := fs.errorListeners + 1 }
            status := FileStatus.bufferingOrWriting }, ?_, rfl, ?_, ?_⟩
  · show ((s.writeFile fs).files).getLast? = _
    rw [show (s.writeFile fs).files = s.files ++
        [{ stream := { fs with errorListeners := fs.errorListeners + 1 }
           status := FileStatus.bufferingOrWriting }] from rfl]
    rw [List.getLast?_append_cons]
    rfl
  · simp [emitErrorOnStream, h]
  · simp [emitErrorOnStream]

/-- Claim C10, witness: a fresh buffered stream with no listeners of
its own gets one listener at write time, and one emitted error is
handled (no unhandled exception). -/
theorem claimC10_witness :
    ∃ f, ((Upstream.fresh "docs").writeFile sampleA).files.getLast? = some f ∧
      f.stream.errorListeners = sampleA.errorListeners + 1 ∧
      (emitErrorOnStream f.stream).unhandledError = false ∧
      (emitErrorOnStream f.stream).errorsReceived = sampleA.errorsReceived + 1 :=
  claimC10 (Upstream.fresh "docs") sampleA rfl

end Skipper
